import Mathlib

/-!
Shallow embedding of the graph derivation and view filtering core of
src/network_6.py: the graph builder build_graph (lines 42 to 48), the view
projector filter_graph (lines 75 to 92) and get_node_attrs (lines 53 to 73),
and the structural metrics the dashboard in main reports through the
networkx library (density, isolated nodes, diameter; lines 209 to 219).

Node identifiers and attribute values are strings, as produced by load_data.
Python dictionaries are embedded as association lists with first match
lookup; the networkx DiGraph is embedded as an insertion ordered node list,
a duplicate free edge list and a per node attribute dictionary.
-/

namespace Net

/-- Name of the parent column of the source table (PARENT_COL, line 15). -/
def PARENT_COL : String := "nome_parent"

/-- Name of the child column of the source table (CHILD_COL, line 16). -/
def CHILD_COL : String := "nome_nodo"

/-- One row of the edge table after load_data (lines 35 to 40): a non null
parent id, a non null child id, and the remaining columns of the table,
whose values may be null (modelled as none). -/
structure Row where
  parent : String
  child : String
  extra : List (String × Option String)
deriving DecidableEq

/-- State of a networkx DiGraph as used by the program: insertion ordered
node list, insertion ordered edge list without duplicates, and an attribute
dictionary per node. -/
structure DiGraph where
  nodes : List String
  edges : List (String × String)
  attrs : String → List (String × String)

/-- The empty directed graph (nx.DiGraph(), line 43). -/
def emptyGraph : DiGraph := ⟨[], [], fun _ => []⟩

/-- Add a node if it is absent, as networkx does for the endpoints of a new
edge. -/
def addNode (g : DiGraph) (v : String) : DiGraph :=
  if v ∈ g.nodes then g else { g with nodes := g.nodes ++ [v] }

/-- Record a directed edge between existing endpoints; adding an edge that
is already present leaves the edge list unchanged. -/
def addEdgeOnly (g : DiGraph) (u v : String) : DiGraph :=
  if (u, v) ∈ g.edges then g else { g with edges := g.edges ++ [(u, v)] }

/-- networkx add_edge: create the missing endpoints, then record the edge
(used by g.add_edges_from at line 44). -/
def addEdge (g : DiGraph) (u v : String) : DiGraph :=
  addEdgeOnly (addNode (addNode g u) v) u v

/-- Python dictionary lookup on an association list (first match). -/
def getAttr (m : List (String × String)) (k : String) : Option String :=
  List.lookup k m

/-- Python dictionary assignment: replace the value of an existing key in
place, otherwise append the new binding at the end. -/
def setKey (m : List (String × String)) (k v : String) : List (String × String) :=
  if m.any (fun p => p.1 == k) then
    m.map (fun p => if p.1 == k then (k, v) else p)
  else m ++ [(k, v)]

/-- Python dict.update: fold the assignments of the new bindings over the
dictionary. -/
def mergeAttrs (m new : List (String × String)) : List (String × String) :=
  new.foldl (fun acc p => setKey acc p.1 p.2) m

/-- The non null bindings among the extra columns of a row. -/
def nonNullExtras (r : Row) : List (String × String) :=
  r.extra.filterMap (fun p => p.2.map (fun v => (p.1, v)))

/-- row.dropna().to_dict() at line 46: every non null binding of the row,
the parent and child columns included. -/
def rowDropNA (r : Row) : List (String × String) :=
  (PARENT_COL, r.parent) :: (CHILD_COL, r.child) :: nonNullExtras r

/-- g.nodes[row[child]].update(attrs) at line 47: merge the non null values
of the row into the attribute dictionary of the child node. -/
def updateChildAttrs (g : DiGraph) (r : Row) : DiGraph :=
  { g with attrs := fun n =>
      if n = r.child then mergeAttrs (g.attrs n) (rowDropNA r) else g.attrs n }

/-- build_graph at lines 42 to 48: add every (parent, child) pair of the
table as a directed edge, then, row by row, merge the non null values of
each row into the attribute dictionary of its child node. -/
def build_graph (rows : List Row) : DiGraph :=
  let g := rows.foldl (fun g r => addEdge g r.parent r.child) emptyGraph
  rows.foldl updateChildAttrs g

/-- G.successors(n): the heads of the outgoing edges of n. -/
def successors (g : DiGraph) (n : String) : List String :=
  (g.edges.filter (fun e => e.1 == n)).map (fun e => e.2)

/-- G.predecessors(n): the tails of the incoming edges of n. -/
def predecessors (g : DiGraph) (n : String) : List String :=
  (g.edges.filter (fun e => e.2 == n)).map (fun e => e.1)

/-- G.subgraph(ns): the induced subgraph on the given node collection,
keeping the edges with both endpoints in it. -/
def subgraph (g : DiGraph) (ns : List String) : DiGraph :=
  { nodes := g.nodes.filter (fun n => ns.contains n)
    edges := g.edges.filter (fun e => ns.contains e.1 && ns.contains e.2)
    attrs := g.attrs }

/-- Failure of filter_graph when the selected node is unknown: in the source
G.successors raises NetworkXError and the community dictionary raises
KeyError; the specification names this condition UnknownNodeError. -/
inductive ProjectionError where
  | UnknownNodeError
deriving DecidableEq

/-- Visible node collection of the ego view, lines 79 to 86: the selected
node, its direct successors and predecessors, and, when expand_neighbors is
set, the successors and predecessors of those neighbors. -/
def egoNodes (g : DiGraph) (selected : String) (expand_neighbors : Bool) : List String :=
  let neighbors := successors g selected ++ predecessors g selected
  if expand_neighbors then
    let second_neighbors := neighbors.flatMap (fun n => successors g n ++ predecessors g n)
    selected :: (neighbors ++ second_neighbors)
  else
    selected :: neighbors

/-- Visible node collection of the community view, line 90: the nodes whose
community id equals the given one. -/
def communityNodes (g : DiGraph) (part : List (String × Nat)) (comm : Nat) : List String :=
  g.nodes.filter (fun n => List.lookup n part == some comm)

/-- filter_graph at lines 75 to 92. The two modes that dereference the
selected node fail when it is unknown: the ego mode calls G.successors on
it, the community mode reads it (and then every graph node) from the
community dictionary. Every other mode value returns the whole graph. -/
def filter_graph (g : DiGraph) (selected mode : String) (part : List (String × Nat))
    (expand_neighbors : Bool) : Except ProjectionError DiGraph :=
  if mode = "Focus on node & neighbors" then
    if selected ∈ g.nodes then .ok (subgraph g (egoNodes g selected expand_neighbors))
    else .error ProjectionError.UnknownNodeError
  else if mode = "Selected Node's Community" then
    match List.lookup selected part with
    | none => .error ProjectionError.UnknownNodeError
    | some comm =>
      if g.nodes.all (fun n => (List.lookup n part).isSome) then
        .ok (subgraph g (communityNodes g part comm))
      else .error ProjectionError.UnknownNodeError
  else .ok g

/-- Visual descriptor of one node as produced by get_node_attrs: a color, a
size and a tooltip text. Sizes are rationals because the centrality mode
computes 15 + val * 40 on floats; the other modes use whole numbers. -/
structure VisualAttrs where
  color : String
  size : ℚ
  title : String
deriving DecidableEq

/-- Tooltip text of a node, lines 56 to 58: the attribute bindings of the
node rendered as one line per binding. -/
def mkTitle (node : String) (node_attrs : List (String × List (String × String))) : String :=
  "ATTRIBUTI NODO:\n" ++ String.intercalate "\n"
    (((List.lookup node node_attrs).getD []).map (fun p => p.1 ++ ": " ++ p.2))

/-- get_node_attrs at lines 53 to 73. The two community modes read the node
from the community dictionary and index the palette, which fails (none) when
the node is absent or the palette is empty; every other mode is total. The
rendering of the centrality alpha value to text abstracts the Python float
formatting by the rational one. -/
def get_node_attrs (node selected mode : String) (centrality : List (String × ℚ))
    (part : List (String × Nat)) (palette : List String)
    (node_attrs : List (String × List (String × String))) : Option VisualAttrs :=
  let title := mkTitle node node_attrs
  if mode = "Focus on node & neighbors" then
    if node = selected then some ⟨"orange", 35, title⟩
    else some ⟨"skyblue", 20, title⟩
  else if mode = "Betweenness Centrality" then
    let val := (List.lookup node centrality).getD 0
    some ⟨"rgba(255,100,100," ++ toString (1/5 + 4/5 * val : ℚ) ++ ")", 15 + val * 40, title⟩
  else if mode = "All Communities" ∨ mode = "Selected Node's Community" then
    match List.lookup node part with
    | none => none
    | some comm =>
      match palette[comm % palette.length]? with
      | none => none
      | some color =>
        some ⟨color,
          if node = selected ∧ mode = "Selected Node's Community" then 40 else 25, title⟩
  else some ⟨"lightgray", 15, title⟩

/-- nx.density as reported at line 212: 0 when there is no edge or at most
one node, otherwise m / (n * (n - 1)) for a directed graph. -/
def nx_density (g : DiGraph) : ℚ :=
  let n := g.nodes.length
  let m := g.edges.length
  if m = 0 ∨ n ≤ 1 then 0
  else (m : ℚ) / ((n : ℚ) * ((n : ℚ) - 1))

/-- nx.isolates as reported at line 213: the nodes without any incident
edge (total directed degree zero). -/
def nx_isolates (g : DiGraph) : List String :=
  g.nodes.filter (fun n => !(g.edges.any (fun e => e.1 == n || e.2 == n)))

/-- Neighbors of a node in the undirected projection G.to_undirected(). -/
def und_adj (g : DiGraph) (n : String) : List String :=
  (g.edges.filter (fun e => e.1 == n)).map (fun e => e.2) ++
    (g.edges.filter (fun e => e.2 == n)).map (fun e => e.1)

/-- Nodes at undirected distance at most k from src: the ball of radius k,
grown one undirected hop at a time. -/
def ball (g : DiGraph) (src : String) : Nat → List String
  | 0 => [src]
  | k + 1 => ball g src k ++ (ball g src k).flatMap (und_adj g)

/-- Whether every node of the graph is undirected reachable from v. A node
reachable at all is reachable within g.nodes.length hops, so that radius
saturates the ball on every graph whose edges join its own nodes. -/
def reaches_all (g : DiGraph) (v : String) : Bool :=
  g.nodes.all (fun m => (ball g v g.nodes.length).contains m)

/-- Whether the undirected projection of the graph is connected, the
condition under which nx.diameter succeeds on a nonempty graph. -/
def connected_und (g : DiGraph) : Bool :=
  g.nodes.all (fun v => reaches_all g v)

/-- Undirected shortest path distance from v to m: the least radius whose
ball reaches m, none when m is unreachable. -/
def und_dist (g : DiGraph) (v m : String) : Option Nat :=
  (List.range (g.nodes.length + 1)).find? (fun k => (ball g v k).contains m)

/-- Eccentricity of v: the largest shortest path distance from v to a node
of the graph. -/
def ecc (g : DiGraph) (v : String) : Nat :=
  (g.nodes.filterMap (fun m => und_dist g v m)).foldl max 0

/-- The diameter line of the dashboard, lines 216 to 219: the value of
nx.diameter(G.to_undirected()) when that call succeeds, none when it raises
(empty graph, or disconnected undirected projection) and the except branch
prints n/d instead. -/
def nx_diameter_report (g : DiGraph) : Option Nat :=
  if g.nodes.isEmpty then none
  else if connected_und g then some ((g.nodes.map (fun v => ecc g v)).foldl max 0)
  else none

/-- Rows of Scenario A of the specification: (A,B), (A,C), (B,C). -/
def scenarioA : List Row :=
  [Row.mk "A" "B" [], Row.mk "A" "C" [], Row.mk "B" "C" []]

/-- Graph of Scenario A. -/
def gA : DiGraph := build_graph scenarioA

/-- A community dictionary putting every Scenario A node in community 0. -/
def partA : List (String × Nat) := [("A", 0), ("B", 0), ("C", 0)]

/-- Rows exercising the attribute merge: two rows share the child C with
the same extra column, a third row has child P. -/
def attrRows : List Row :=
  [Row.mk "P" "C" [("note", some "1")],
   Row.mk "Q" "C" [("note", some "2")],
   Row.mk "C" "P" [("note", some "9")]]

/-- Rows of Scenario D: the community of A is A, D, E and the pair B, C is
separate. -/
def scenarioD : List Row :=
  [Row.mk "A" "D" [], Row.mk "D" "E" [], Row.mk "B" "C" []]

/-- Graph of Scenario D. -/
def gD : DiGraph := build_graph scenarioD

/-- A community dictionary for Scenario D: A, D, E in community 0 and B, C
in community 1. -/
def partD : List (String × Nat) := [("A", 0), ("D", 0), ("E", 0), ("B", 1), ("C", 1)]

/-- The one node graph produced by the single self referencing row (X, X). -/
def gLoop : DiGraph := build_graph [Row.mk "X" "X" []]

theorem addNode_attrs (g : DiGraph) (v : String) : (addNode g v).attrs = g.attrs := by
  unfold addNode; split <;> rfl

theorem addNode_edges (g : DiGraph) (v : String) : (addNode g v).edges = g.edges := by
  unfold addNode; split <;> rfl

theorem addNode_nodes_mem (g : DiGraph) (v x : String) :
    x ∈ (addNode g v).nodes ↔ x ∈ g.nodes ∨ x = v := by
  unfold addNode; split <;> simp_all

theorem addNode_nodes_nodup (g : DiGraph) (v : String) (h : g.nodes.Nodup) :
    (addNode g v).nodes.Nodup := by
  unfold addNode
  by_cases hv : v ∈ g.nodes
  · rw [if_pos hv]; exact h
  · rw [if_neg hv]
    simp [List.nodup_append, h, hv]

theorem addEdgeOnly_attrs (g : DiGraph) (u v : String) : (addEdgeOnly g u v).attrs = g.attrs := by
  unfold addEdgeOnly; split <;> rfl

theorem addEdgeOnly_nodes (g : DiGraph) (u v : String) : (addEdgeOnly g u v).nodes = g.nodes := by
  unfold addEdgeOnly; split <;> rfl

theorem addEdgeOnly_edges_mem (g : DiGraph) (u v : String) (e : String × String) :
    e ∈ (addEdgeOnly g u v).edges ↔ e ∈ g.edges ∨ e = (u, v) := by
  unfold addEdgeOnly; split <;> simp_all

theorem addEdgeOnly_edges_nodup (g : DiGraph) (u v : String) (h : g.edges.Nodup) :
    (addEdgeOnly g u v).edges.Nodup := by
  unfold addEdgeOnly
  by_cases he : (u, v) ∈ g.edges
  · rw [if_pos he]; exact h
  · rw [if_neg he]
    simp [List.nodup_append, h, he]

theorem addEdge_attrs (g : DiGraph) (u v : String) : (addEdge g u v).attrs = g.attrs := by
  simp [addEdge, addEdgeOnly_attrs, addNode_attrs]

theorem addEdge_nodes_mem (g : DiGraph) (u v x : String) :
    x ∈ (addEdge g u v).nodes ↔ x ∈ g.nodes ∨ x = u ∨ x = v := by
  simp [addEdge, addEdgeOnly_nodes, addNode_nodes_mem, or_assoc]

theorem addEdge_nodes_nodup (g : DiGraph) (u v : String) (h : g.nodes.Nodup) :
    (addEdge g u v).nodes.Nodup := by
  simp only [addEdge, addEdgeOnly_nodes]
  exact addNode_nodes_nodup _ _ (addNode_nodes_nodup _ _ h)

theorem addEdge_edges_mem (g : DiGraph) (u v : String) (e : String × String) :
    e ∈ (addEdge g u v).edges ↔ e ∈ g.edges ∨ e = (u, v) := by
  simp [addEdge, addEdgeOnly_edges_mem, addNode_edges]

theorem addEdge_edges_nodup (g : DiGraph) (u v : String) (h : g.edges.Nodup) :
    (addEdge g u v).edges.Nodup := by
  apply addEdgeOnly_edges_nodup
  simp [addNode_edges, h]

theorem foldl_addEdge_attrs (rows : List Row) (g : DiGraph) :
    (rows.foldl (fun g r => addEdge g r.parent r.child) g).attrs = g.attrs := by
  induction rows generalizing g with
  | nil => rfl
  | cons r rows ih => simp [List.foldl_cons, ih, addEdge_attrs]

theorem foldl_addEdge_nodes_mem (rows : List Row) (g : DiGraph) (x : String) :
    x ∈ (rows.foldl (fun g r => addEdge g r.parent r.child) g).nodes ↔
      x ∈ g.nodes ∨ ∃ r ∈ rows, r.parent = x ∨ r.child = x := by
  induction rows generalizing g with
  | nil => simp
  | cons r rows ih =>
    rw [List.foldl_cons, ih, addEdge_nodes_mem]
    constructor
    · rintro ((h | h | h) | ⟨r', hr', h⟩)
      · exact Or.inl h
      · exact Or.inr ⟨r, List.mem_cons_self r rows, Or.inl h.symm⟩
      · exact Or.inr ⟨r, List.mem_cons_self r rows, Or.inr h.symm⟩
      · exact Or.inr ⟨r', List.mem_cons_of_mem r hr', h⟩
    · rintro (h | ⟨r', hr', h⟩)
      · exact Or.inl (Or.inl h)
      · rcases List.mem_cons.mp hr' with rfl | hr''
        · rcases h with h | h
          · exact Or.inl (Or.inr (Or.inl h.symm))
          · exact Or.inl (Or.inr (Or.inr h.symm))
        · exact Or.inr ⟨r', hr'', h⟩

theorem foldl_addEdge_edges_mem (rows : List Row) (g : DiGraph) (u v : String) :
    (u, v) ∈ (rows.foldl (fun g r => addEdge g r.parent r.child) g).edges ↔
      (u, v) ∈ g.edges ∨ ∃ r ∈ rows, r.parent = u ∧ r.child = v := by
  induction rows generalizing g with
  | nil => simp
  | cons r rows ih =>
    rw [List.foldl_cons, ih, addEdge_edges_mem]
    constructor
    · rintro ((h | h) | ⟨r', hr', h⟩)
      · exact Or.inl h
      · rw [Prod.mk.injEq] at h
        exact Or.inr ⟨r, List.mem_cons_self r rows, h.1.symm, h.2.symm⟩
      · exact Or.inr ⟨r', List.mem_cons_of_mem r hr', h⟩
    · rintro (h | ⟨r', hr', h⟩)
      · exact Or.inl (Or.inl h)
      · rcases List.mem_cons.mp hr' with rfl | hr''
        · exact Or.inl (Or.inr (by rw [Prod.mk.injEq]; exact ⟨h.1.symm, h.2.symm⟩))
        · exact Or.inr ⟨r', hr'', h⟩

theorem foldl_addEdge_nodes_nodup (rows : List Row) (g : DiGraph) (h : g.nodes.Nodup) :
    (rows.foldl (fun g r => addEdge g r.parent r.child) g).nodes.Nodup := by
  induction rows generalizing g with
  | nil => exact h
  | cons r rows ih => exact ih _ (addEdge_nodes_nodup _ _ _ h)

theorem foldl_addEdge_edges_nodup (rows : List Row) (g : DiGraph) (h : g.edges.Nodup) :
    (rows.foldl (fun g r => addEdge g r.parent r.child) g).edges.Nodup := by
  induction rows generalizing g with
  | nil => exact h
  | cons r rows ih => exact ih _ (addEdge_edges_nodup _ _ _ h)

theorem foldl_update_nodes (rows : List Row) (g : DiGraph) :
    (rows.foldl updateChildAttrs g).nodes = g.nodes := by
  induction rows generalizing g with
  | nil => rfl
  | cons r rows ih => simpa using ih (updateChildAttrs g r)

theorem foldl_update_edges (rows : List Row) (g : DiGraph) :
    (rows.foldl updateChildAttrs g).edges = g.edges := by
  induction rows generalizing g with
  | nil => rfl
  | cons r rows ih => simpa using ih (updateChildAttrs g r)

theorem build_graph_nodes_mem (rows : List Row) (x : String) :
    x ∈ (build_graph rows).nodes ↔ ∃ r ∈ rows, r.parent = x ∨ r.child = x := by
  show x ∈ (rows.foldl updateChildAttrs _).nodes ↔ _
  rw [foldl_update_nodes, foldl_addEdge_nodes_mem]
  simp [emptyGraph]

theorem build_graph_edges_mem (rows : List Row) (u v : String) :
    (u, v) ∈ (build_graph rows).edges ↔ ∃ r ∈ rows, r.parent = u ∧ r.child = v := by
  show (u, v) ∈ (rows.foldl updateChildAttrs _).edges ↔ _
  rw [foldl_update_edges, foldl_addEdge_edges_mem]
  simp [emptyGraph]

theorem build_graph_nodes_nodup (rows : List Row) : (build_graph rows).nodes.Nodup := by
  show (rows.foldl updateChildAttrs _).nodes.Nodup
  rw [foldl_update_nodes]
  exact foldl_addEdge_nodes_nodup _ _ (by simp [emptyGraph])

theorem build_graph_edges_nodup (rows : List Row) : (build_graph rows).edges.Nodup := by
  show (rows.foldl updateChildAttrs _).edges.Nodup
  rw [foldl_update_edges]
  exact foldl_addEdge_edges_nodup _ _ (by simp [emptyGraph])

theorem lookup_append {α β : Type} [BEq α] (k : α) (l1 l2 : List (α × β)) :
    List.lookup k (l1 ++ l2) = (List.lookup k l1).or (List.lookup k l2) := by
  induction l1 with
  | nil => simp
  | cons p l ih =>
    rcases p with ⟨a, b⟩
    rw [List.cons_append, List.lookup_cons, List.lookup_cons]
    cases h : k == a
    · simpa using ih
    · simp

theorem lookup_eq_none_of {α β : Type} [BEq α] [LawfulBEq α] (k : α) (l : List (α × β))
    (h : ∀ p ∈ l, p.1 ≠ k) : List.lookup k l = none := by
  induction l with
  | nil => simp
  | cons p l ih =>
    rcases p with ⟨a, b⟩
    rw [List.lookup_cons]
    have ha : a ≠ k := h (a, b) (List.mem_cons_self _ _)
    have hb : (k == a) = false := by
      rw [beq_eq_false_iff_ne]
      exact fun hh => ha hh.symm
    rw [hb]
    exact ih (fun p hp => h p (List.mem_cons_of_mem _ hp))

theorem lookup_reverse_of_nodup {α β : Type} [BEq α] [LawfulBEq α] (k : α)
    (l : List (α × β)) (h : (l.map Prod.fst).Nodup) :
    List.lookup k l.reverse = List.lookup k l := by
  induction l with
  | nil => simp
  | cons p l ih =>
    rcases p with ⟨a, b⟩
    rw [List.reverse_cons, lookup_append, List.lookup_cons]
    simp only [List.map_cons, List.nodup_cons] at h
    cases hk : k == a
    · rw [ih h.2]
      simp only [List.lookup_cons, hk, List.lookup_nil, Option.or_none]
    · have hnone : List.lookup k l.reverse = none := by
        apply lookup_eq_none_of
        intro q hq hq1
        apply h.1
        have hmem : q ∈ l := List.mem_reverse.mp hq
        have : q.1 ∈ l.map Prod.fst := List.mem_map_of_mem _ hmem
        rwa [hq1, eq_of_beq hk] at this
      rw [hnone]
      simp only [List.lookup_cons, hk, Option.none_or]

theorem lookup_map_setKey_ne (l : List (String × String)) (k' v k : String)
    (hk : (k == k') = false) :
    List.lookup k (l.map (fun p => if p.1 == k' then (k', v) else p)) = List.lookup k l := by
  induction l with
  | nil => simp
  | cons p l ih =>
    rcases p with ⟨a, b⟩
    simp only [List.map_cons]
    by_cases ha : (a == k') = true
    · rw [if_pos (by simpa using ha)]
      rw [List.lookup_cons, List.lookup_cons]
      have hka : (k == a) = false := by
        rw [eq_of_beq ha]; exact hk
      rw [hk, hka]
      exact ih
    · rw [if_neg (by simpa using ha)]
      rw [List.lookup_cons, List.lookup_cons]
      cases hka : k == a
      · exact ih
      · rfl

theorem lookup_map_setKey_self (l : List (String × String)) (k' v : String)
    (hany : l.any (fun p => p.1 == k') = true) :
    List.lookup k' (l.map (fun p => if p.1 == k' then (k', v) else p)) = some v := by
  induction l with
  | nil => simp at hany
  | cons p l ih =>
    rcases p with ⟨a, b⟩
    simp only [List.map_cons]
    by_cases ha : (a == k') = true
    · rw [if_pos (by simpa using ha), List.lookup_cons]
      simp
    · rw [if_neg (by simpa using ha), List.lookup_cons]
      have h1 : (k' == a) = false := by
        cases h2 : k' == a
        · rfl
        · exfalso
          apply ha
          rw [eq_of_beq h2]
          simp
      rw [h1]
      apply ih
      simp only [List.any_cons, Bool.or_eq_true] at hany
      rcases hany with h | h
      · exact absurd (by simpa using h) ha
      · exact h

theorem lookup_eq_none_of_any_eq_false (l : List (String × String)) (k' : String)
    (h : l.any (fun p => p.1 == k') = false) : List.lookup k' l = none := by
  apply lookup_eq_none_of
  intro p hp
  rw [List.any_eq_false] at h
  have := h p hp
  simpa using this

theorem getAttr_setKey (m : List (String × String)) (k' v k : String) :
    getAttr (setKey m k' v) k = if k = k' then some v else getAttr m k := by
  unfold setKey getAttr
  by_cases hany : m.any (fun p => p.1 == k') = true
  · rw [if_pos hany]
    by_cases hk : k = k'
    · subst hk
      rw [if_pos rfl]
      exact lookup_map_setKey_self m k v hany
    · rw [if_neg hk]
      exact lookup_map_setKey_ne m k' v k (beq_eq_false_iff_ne.mpr hk)
  · rw [if_neg hany]
    rw [lookup_append]
    have hany' : m.any (fun p => p.1 == k') = false := Bool.eq_false_iff.mpr hany
    by_cases hk : k = k'
    · subst hk
      rw [if_pos rfl]
      rw [lookup_eq_none_of_any_eq_false m k hany']
      rw [List.lookup_cons]
      simp
    · rw [if_neg hk]
      have : List.lookup k [(k', v)] = none := by
        rw [List.lookup_cons, beq_eq_false_iff_ne.mpr hk]
        rfl
      rw [this, Option.or_none]

theorem getAttr_mergeAttrs (m new : List (String × String)) (k : String) :
    getAttr (mergeAttrs m new) k = (List.lookup k new.reverse).or (getAttr m k) := by
  induction new generalizing m with
  | nil => simp [mergeAttrs, getAttr]
  | cons p t ih =>
    rcases p with ⟨a, b⟩
    show getAttr (mergeAttrs (setKey m a b) t) k = _
    rw [ih, List.reverse_cons, lookup_append, getAttr_setKey, Option.or_assoc]
    congr 1
    by_cases hk : k = a
    · subst hk
      rw [if_pos rfl, List.lookup_cons]
      simp
    · rw [if_neg hk]
      have : List.lookup k [(a, b)] = none := by
        rw [List.lookup_cons, beq_eq_false_iff_ne.mpr hk]
        rfl
      rw [this, Option.none_or]

theorem keys_nonNullExtras_sublist (l : List (String × Option String)) :
    ((l.filterMap (fun p => p.2.map (fun v => (p.1, v)))).map Prod.fst).Sublist
      (l.map Prod.fst) := by
  induction l with
  | nil => simp
  | cons p t ih =>
    rcases p with ⟨a, ov⟩
    cases ov
    · simpa [List.filterMap_cons] using ih.cons a
    · simpa [List.filterMap_cons] using ih.cons₂ a

theorem getAttr_merge_row (m : List (String × String)) (r : Row) (k : String)
    (hk1 : k ≠ PARENT_COL) (hk2 : k ≠ CHILD_COL)
    (hnd : (r.extra.map Prod.fst).Nodup) :
    getAttr (mergeAttrs m (rowDropNA r)) k =
      (List.lookup k (nonNullExtras r)).or (getAttr m k) := by
  rw [getAttr_mergeAttrs]
  congr 1
  show List.lookup k ((PARENT_COL, r.parent) :: ((CHILD_COL, r.child) :: nonNullExtras r)).reverse = _
  rw [List.reverse_cons, List.reverse_cons, lookup_append, lookup_append]
  have h1 : List.lookup k [(PARENT_COL, r.parent)] = none := by
    rw [List.lookup_cons, beq_eq_false_iff_ne.mpr hk1]
    rfl
  have h2 : List.lookup k [(CHILD_COL, r.child)] = none := by
    rw [List.lookup_cons, beq_eq_false_iff_ne.mpr hk2]
    rfl
  rw [h1, h2, Option.or_none, Option.or_none]
  exact lookup_reverse_of_nodup k (nonNullExtras r)
    ((keys_nonNullExtras_sublist r.extra).nodup hnd)

theorem foldl_update_attrs (rows : List Row) (g : DiGraph) (n : String) :
    (rows.foldl updateChildAttrs g).attrs n =
      (rows.filter (fun r => r.child == n)).foldl
        (fun m r => mergeAttrs m (rowDropNA r)) (g.attrs n) := by
  induction rows generalizing g with
  | nil => rfl
  | cons r rows ih =>
    rw [List.foldl_cons, ih, List.filter_cons]
    by_cases h : r.child = n
    · rw [if_pos (by simpa using h), List.foldl_cons]
      congr 1
      show (if n = r.child then mergeAttrs (g.attrs n) (rowDropNA r) else g.attrs n) = _
      rw [if_pos h.symm]
    · rw [if_neg (by simpa using h)]
      congr 1
      show (if n = r.child then mergeAttrs (g.attrs n) (rowDropNA r) else g.attrs n) = g.attrs n
      rw [if_neg (fun hh => h hh.symm)]

theorem getAttr_foldl_merge (l : List Row) (m : List (String × String)) (k : String)
    (hk1 : k ≠ PARENT_COL) (hk2 : k ≠ CHILD_COL)
    (hnd : ∀ r ∈ l, (r.extra.map Prod.fst).Nodup) :
    getAttr (l.foldl (fun m r => mergeAttrs m (rowDropNA r)) m) k =
      (l.reverse.findSome? (fun r => List.lookup k (nonNullExtras r))).or (getAttr m k) := by
  induction l generalizing m with
  | nil => simp
  | cons r t ih =>
    rw [List.foldl_cons, ih _ (fun r hr => hnd r (List.mem_cons_of_mem _ hr)),
        getAttr_merge_row m r k hk1 hk2 (hnd r (List.mem_cons_self _ _)),
        List.reverse_cons, List.findSome?_append, Option.or_assoc]
    congr 1
    cases hf : List.lookup k (nonNullExtras r) <;>
      simp [List.findSome?_cons, hf]

theorem build_graph_attrs_get (rows : List Row) (n k : String)
    (hk1 : k ≠ PARENT_COL) (hk2 : k ≠ CHILD_COL)
    (hnd : ∀ r ∈ rows, (r.extra.map Prod.fst).Nodup) :
    getAttr ((build_graph rows).attrs n) k =
      ((rows.filter (fun r => r.child == n)).reverse).findSome?
        (fun r => List.lookup k (nonNullExtras r)) := by
  show getAttr ((rows.foldl updateChildAttrs _).attrs n) k = _
  rw [foldl_update_attrs, foldl_addEdge_attrs,
      getAttr_foldl_merge _ _ _ hk1 hk2 (fun r hr => hnd r (List.mem_of_mem_filter hr))]
  show (_ : Option String).or (getAttr (emptyGraph.attrs n) k) = _
  simp [getAttr, emptyGraph]



/-- Claim C1: repeated rows with the same (parent, child) pair produce exactly
one directed edge: the edge list of build_graph has no duplicates and holds
one edge per ordered pair occurring in some row; the two row table with the
duplicate pair (X, Y) yields exactly one edge and two nodes. -/
theorem build_graph_duplicate_rows_collapse :
    ((build_graph [Row.mk "X" "Y" [], Row.mk "X" "Y" []]).edges = [("X", "Y")] ∧
      (build_graph [Row.mk "X" "Y" [], Row.mk "X" "Y" []]).nodes = ["X", "Y"]) ∧
    ∀ rows : List Row, (build_graph rows).edges.Nodup ∧
      ∀ u v : String, ((u, v) ∈ (build_graph rows).edges ↔
        ∃ r ∈ rows, r.parent = u ∧ r.child = v) :=
  ⟨⟨by decide, by decide⟩,
   fun rows => ⟨build_graph_edges_nodup rows, fun u v => build_graph_edges_mem rows u v⟩⟩

/-- Claim C2: for every table, the value of an extra attribute k on a node n
is determined by the last row whose child is n and whose k column is non
null: rows merge into the child node only, in table order, later non null
values overwriting earlier ones, and rows where n is the parent contribute
nothing. -/
theorem build_graph_child_attr_last_write (rows : List Row) (n k : String)
    (hk1 : k ≠ PARENT_COL) (hk2 : k ≠ CHILD_COL)
    (hnd : ∀ r ∈ rows, (r.extra.map Prod.fst).Nodup) :
    getAttr ((build_graph rows).attrs n) k =
      ((rows.filter (fun r => r.child == n)).reverse).findSome?
        (fun r => List.lookup k (nonNullExtras r)) :=
  build_graph_attrs_get rows n k hk1 hk2 hnd

/-- Witness for claim C2 at a concrete table: the child C receives the value
of the later row, and the row where C is a parent contributes nothing. -/
theorem build_graph_child_attr_last_write_witness :
    getAttr ((build_graph attrRows).attrs "C") "note" = some "2" :=
  (build_graph_child_attr_last_write attrRows "C" "note" (by decide) (by decide)
    (by decide)).trans (by decide)

/-- Claim C3: the node list of build_graph is exactly the identifiers that
occur as parent or child of some row, without duplicates; Scenario A yields
the nodes A, B, C. -/
theorem build_graph_nodes_exact :
    (build_graph scenarioA).nodes = ["A", "B", "C"] ∧
    ∀ rows : List Row, (build_graph rows).nodes.Nodup ∧
      ∀ x : String, (x ∈ (build_graph rows).nodes ↔
        ∃ r ∈ rows, r.parent = x ∨ r.child = x) :=
  ⟨by decide,
   fun rows => ⟨build_graph_nodes_nodup rows, fun x => build_graph_nodes_mem rows x⟩⟩

/-- Claim C10: every node of a graph built by build_graph is an endpoint of
at least one edge, so the isolated node list of such a graph is empty. -/
theorem build_graph_no_isolates :
    ∀ rows : List Row, nx_isolates (build_graph rows) = [] ∧
      ∀ x ∈ (build_graph rows).nodes,
        ∃ e ∈ (build_graph rows).edges, e.1 = x ∨ e.2 = x := by
  intro rows
  have key : ∀ x ∈ (build_graph rows).nodes,
      ∃ e ∈ (build_graph rows).edges, e.1 = x ∨ e.2 = x := by
    intro x hx
    rcases (build_graph_nodes_mem rows x).mp hx with ⟨r, hr, hpc⟩
    exact ⟨(r.parent, r.child),
      (build_graph_edges_mem rows r.parent r.child).mpr ⟨r, hr, rfl, rfl⟩, hpc⟩
  refine ⟨?_, key⟩
  rw [nx_isolates, List.filter_eq_nil_iff]
  intro x hx
  rcases key x hx with ⟨e, he, hor⟩
  have hany : (build_graph rows).edges.any (fun e => e.1 == x || e.2 == x) = true := by
    rw [List.any_eq_true]
    refine ⟨e, he, ?_⟩
    rcases hor with h | h <;> simp [h]
  simp [hany]


theorem contains_iff_mem (l : List String) (x : String) : l.contains x = true ↔ x ∈ l := by
  induction l with
  | nil => simp
  | cons a t ih => simp [List.contains_cons, ih]

theorem mem_subgraph_nodes (g : DiGraph) (ns : List String) (x : String) :
    x ∈ (subgraph g ns).nodes ↔ x ∈ g.nodes ∧ x ∈ ns := by
  simp [subgraph, List.mem_filter, contains_iff_mem]

theorem mem_subgraph_edges (g : DiGraph) (ns : List String) (e : String × String) :
    e ∈ (subgraph g ns).edges ↔ e ∈ g.edges ∧ e.1 ∈ ns ∧ e.2 ∈ ns := by
  simp [subgraph, List.mem_filter, contains_iff_mem, Bool.and_eq_true, and_assoc]

theorem mem_communityNodes (g : DiGraph) (part : List (String × Nat)) (comm : Nat)
    (n : String) :
    n ∈ communityNodes g part comm ↔ n ∈ g.nodes ∧ List.lookup n part = some comm := by
  simp [communityNodes, List.mem_filter]

/-- Claim C4: when the selected node is not a node of the graph, both modes
that dereference it (the ego view and the community view) fail with
UnknownNodeError and no subgraph is produced. The community dictionary is
assumed to cover only graph nodes, as the one computed in main does. -/
theorem filter_graph_unknown_focal (g : DiGraph) (selected : String)
    (part : List (String × Nat)) (expand : Bool)
    (hdom : ∀ p ∈ part, p.1 ∈ g.nodes) (hsel : selected ∉ g.nodes) :
    filter_graph g selected "Focus on node & neighbors" part expand =
      .error ProjectionError.UnknownNodeError ∧
    filter_graph g selected "Selected Node's Community" part expand =
      .error ProjectionError.UnknownNodeError := by
  constructor
  · unfold filter_graph
    rw [if_pos rfl, if_neg hsel]
  · unfold filter_graph
    rw [if_neg (by decide), if_pos rfl]
    have hnone : List.lookup selected part = none :=
      lookup_eq_none_of selected part (fun p hp heq => hsel (heq ▸ hdom p hp))
    rw [hnone]

/-- Witness for claim C4: the node Z is not in the Scenario A graph and both
modes report UnknownNodeError on it. -/
theorem filter_graph_unknown_focal_witness :
    filter_graph gA "Z" "Focus on node & neighbors" partA false =
      .error ProjectionError.UnknownNodeError ∧
    filter_graph gA "Z" "Selected Node's Community" partA false =
      .error ProjectionError.UnknownNodeError :=
  filter_graph_unknown_focal gA "Z" partA false (by decide) (by decide)

/-- Claim C5: on a mode value that is none of the four recognized modes the
projection never fails: filter_graph returns the whole graph and every node
gets the uniform neutral descriptor, color lightgray and size 15. -/
theorem filter_graph_fallback_total (g : DiGraph) (selected mode : String)
    (part : List (String × Nat)) (centrality : List (String × ℚ)) (palette : List String)
    (node_attrs : List (String × List (String × String))) (expand : Bool)
    (_hsel : selected ∈ g.nodes)
    (h1 : mode ≠ "Focus on node & neighbors") (h2 : mode ≠ "Betweenness Centrality")
    (h3 : mode ≠ "All Communities") (h4 : mode ≠ "Selected Node's Community") :
    filter_graph g selected mode part expand = .ok g ∧
    ∀ node, get_node_attrs node selected mode centrality part palette node_attrs =
      some ⟨"lightgray", 15, mkTitle node node_attrs⟩ := by
  constructor
  · unfold filter_graph
    rw [if_neg h1, if_neg h4]
  · intro node
    simp only [get_node_attrs]
    rw [if_neg h1, if_neg h2, if_neg (fun hc => hc.elim h3 h4)]

/-- Witness for claim C5 on the Scenario A graph with an unrecognized mode. -/
theorem filter_graph_fallback_total_witness :
    filter_graph gA "A" "Unknown Mode" partA false = .ok gA ∧
    get_node_attrs "A" "A" "Unknown Mode" [] partA [] [] =
      some ⟨"lightgray", 15, mkTitle "A" []⟩ :=
  ⟨(filter_graph_fallback_total gA "A" "Unknown Mode" partA [] [] [] false (by decide)
      (by decide) (by decide) (by decide) (by decide)).1,
   (filter_graph_fallback_total gA "A" "Unknown Mode" partA [] [] [] false (by decide)
      (by decide) (by decide) (by decide) (by decide)).2 "A"⟩

/-- Claim C6: for a selected node of the graph the ego projection succeeds
with and without the expansion flag, its visible node list contains the
selected node in both cases, and the expanded visible node list contains
every node of the unexpanded one. -/
theorem filter_graph_ego_focal_superset (g : DiGraph) (selected : String)
    (part : List (String × Nat)) (hsel : selected ∈ g.nodes) :
    filter_graph g selected "Focus on node & neighbors" part false =
      .ok (subgraph g (egoNodes g selected false)) ∧
    filter_graph g selected "Focus on node & neighbors" part true =
      .ok (subgraph g (egoNodes g selected true)) ∧
    selected ∈ (subgraph g (egoNodes g selected false)).nodes ∧
    selected ∈ (subgraph g (egoNodes g selected true)).nodes ∧
    ∀ n ∈ (subgraph g (egoNodes g selected false)).nodes,
      n ∈ (subgraph g (egoNodes g selected true)).nodes := by
  refine ⟨?_, ?_, ?_, ?_, ?_⟩
  · unfold filter_graph
    rw [if_pos rfl, if_pos hsel]
  · unfold filter_graph
    rw [if_pos rfl, if_pos hsel]
  · rw [mem_subgraph_nodes]
    exact ⟨hsel, by simp [egoNodes]⟩
  · rw [mem_subgraph_nodes]
    exact ⟨hsel, by simp [egoNodes]⟩
  · intro n hn
    rw [mem_subgraph_nodes] at hn ⊢
    refine ⟨hn.1, ?_⟩
    have h2 := hn.2
    simp only [egoNodes, Bool.false_eq_true, if_false, if_true, List.mem_cons,
      List.mem_append] at h2 ⊢
    tauto

/-- Witness for claim C6 on the Scenario A graph with selected node A: both
projections succeed, A is visible in both, and the node B visible without
expansion stays visible with it. -/
theorem filter_graph_ego_focal_superset_witness :
    filter_graph gA "A" "Focus on node & neighbors" partA false =
      .ok (subgraph gA (egoNodes gA "A" false)) ∧
    "A" ∈ (subgraph gA (egoNodes gA "A" false)).nodes ∧
    "A" ∈ (subgraph gA (egoNodes gA "A" true)).nodes ∧
    "B" ∈ (subgraph gA (egoNodes gA "A" true)).nodes :=
  ⟨(filter_graph_ego_focal_superset gA "A" partA (by decide)).1,
   (filter_graph_ego_focal_superset gA "A" partA (by decide)).2.2.1,
   (filter_graph_ego_focal_superset gA "A" partA (by decide)).2.2.2.1,
   (filter_graph_ego_focal_superset gA "A" partA (by decide)).2.2.2.2 "B" (by decide)⟩

/-- Claim C7: for a selected node of the graph whose community id is comm
and a community dictionary covering every graph node, the community
projection returns the induced subgraph on the nodes of community comm: its
node list is exactly the graph nodes with community comm and its edge list
is exactly the graph edges with both endpoints visible. -/
theorem filter_graph_selected_community (g : DiGraph) (selected : String)
    (part : List (String × Nat)) (expand : Bool) (comm : Nat)
    (hdom : ∀ n ∈ g.nodes, (List.lookup n part).isSome = true)
    (_hsel : selected ∈ g.nodes)
    (hcomm : List.lookup selected part = some comm) :
    filter_graph g selected "Selected Node's Community" part expand =
      .ok (subgraph g (communityNodes g part comm)) ∧
    (∀ n, n ∈ (subgraph g (communityNodes g part comm)).nodes ↔
      n ∈ g.nodes ∧ List.lookup n part = some comm) ∧
    (∀ e, e ∈ (subgraph g (communityNodes g part comm)).edges ↔
      e ∈ g.edges ∧ e.1 ∈ (subgraph g (communityNodes g part comm)).nodes ∧
        e.2 ∈ (subgraph g (communityNodes g part comm)).nodes) := by
  refine ⟨?_, ?_, ?_⟩
  · unfold filter_graph
    rw [if_neg (by decide), if_pos rfl, hcomm]
    show (if (g.nodes.all fun n => (List.lookup n part).isSome) = true then
        Except.ok (subgraph g (communityNodes g part comm))
      else Except.error ProjectionError.UnknownNodeError) = _
    rw [if_pos (List.all_eq_true.mpr hdom)]
  · intro n
    rw [mem_subgraph_nodes]
    have h1 := mem_communityNodes g part comm n
    tauto
  · intro e
    rw [mem_subgraph_edges, mem_subgraph_nodes, mem_subgraph_nodes]
    have h1 := mem_communityNodes g part comm e.1
    have h2 := mem_communityNodes g part comm e.2
    tauto

/-- Witness for claim C7 on the Scenario D graph: the community of A is
exactly A, D, E, the edge (A, D) is induced and the edge (B, C) is not. -/
theorem filter_graph_selected_community_witness :
    filter_graph gD "A" "Selected Node's Community" partD false =
      .ok (subgraph gD (communityNodes gD partD 0)) ∧
    ("D" ∈ (subgraph gD (communityNodes gD partD 0)).nodes ↔
      "D" ∈ gD.nodes ∧ List.lookup "D" partD = some 0) ∧
    (("A", "D") ∈ (subgraph gD (communityNodes gD partD 0)).edges ↔
      ("A", "D") ∈ gD.edges ∧
        ("A", "D").1 ∈ (subgraph gD (communityNodes gD partD 0)).nodes ∧
        ("A", "D").2 ∈ (subgraph gD (communityNodes gD partD 0)).nodes) :=
  ⟨(filter_graph_selected_community gD "A" partD false 0 (by decide) (by decide)
      (by decide)).1,
   (filter_graph_selected_community gD "A" partD false 0 (by decide) (by decide)
      (by decide)).2.1 "D",
   (filter_graph_selected_community gD "A" partD false 0 (by decide) (by decide)
      (by decide)).2.2 ("A", "D")⟩


theorem ecc_singleton (g : DiGraph) (x : String) (hx : g.nodes = [x]) : ecc g x = 0 := by
  unfold ecc und_dist
  rw [hx]
  have h0 : (List.range (([x] : List String).length + 1)).find?
      (fun k => (ball g x k).contains x) = some 0 := by
    rw [List.range_succ_eq_map, List.find?_cons_of_pos _ (by simp [ball])]
  simp only [List.filterMap_cons, h0, List.filterMap_nil, List.foldl_cons, List.foldl_nil]
  rfl

/-- Claim C8: the reported density is m / (n * (n - 1)) whenever the graph
has at least two nodes (the denominator being nonzero there) and is 0 for a
graph with fewer than two nodes; the computation is total. -/
theorem nx_density_formula (g : DiGraph) :
    (g.nodes.length < 2 → nx_density g = 0) ∧
    (2 ≤ g.nodes.length →
      ((g.nodes.length : ℚ) * ((g.nodes.length : ℚ) - 1) ≠ 0 ∧
        nx_density g = (g.edges.length : ℚ) /
          ((g.nodes.length : ℚ) * ((g.nodes.length : ℚ) - 1)))) := by
  constructor
  · intro h
    simp only [nx_density]
    rw [if_pos (Or.inr (by omega))]
  · intro h
    have h2 : (2 : ℚ) ≤ (g.nodes.length : ℚ) := by exact_mod_cast h
    have hpos : 0 < (g.nodes.length : ℚ) * ((g.nodes.length : ℚ) - 1) := by nlinarith
    refine ⟨ne_of_gt hpos, ?_⟩
    simp only [nx_density]
    by_cases hm : g.edges.length = 0
    · rw [if_pos (Or.inl hm), hm]
      simp
    · rw [if_neg (fun hc => hc.elim hm (fun h1 => by omega))]

/-- Witness for claim C8 on the Scenario A graph, which has three nodes. -/
theorem nx_density_formula_witness :
    nx_density gA = (gA.edges.length : ℚ) /
      ((gA.nodes.length : ℚ) * ((gA.nodes.length : ℚ) - 1)) :=
  ((nx_density_formula gA).2 (by decide)).2

/-- Counterexample to claim C9 as stated: the one node graph built from the
single self referencing row (X, X) has fewer than two nodes, yet the
dashboard reports the numeric diameter 0 for it rather than the absent
value, because the undirected projection of a one node graph is connected
and nx.diameter succeeds on it. -/
theorem nx_diameter_one_node_numeric :
    gLoop.nodes.length < 2 ∧ nx_diameter_report gLoop = some 0 := by
  constructor
  · decide
  · decide

/-- Claim C9 as amended: the diameter is reported absent when the graph is
empty or its undirected projection is disconnected, and a numeric value is
reported for every nonempty connected graph, including the one node graph,
for which 0 is reported rather than the absent value. -/
theorem nx_diameter_report_connected (g : DiGraph) :
    (g.nodes = [] → nx_diameter_report g = none) ∧
    (connected_und g = false → nx_diameter_report g = none) ∧
    (g.nodes ≠ [] → connected_und g = true → (nx_diameter_report g).isSome = true) ∧
    (∀ x : String, g.nodes = [x] → nx_diameter_report g = some 0) := by
  refine ⟨?_, ?_, ?_, ?_⟩
  · intro h
    unfold nx_diameter_report
    rw [if_pos (by simp [h])]
  · intro h
    unfold nx_diameter_report
    by_cases he : g.nodes.isEmpty = true
    · rw [if_pos he]
    · rw [if_neg he, if_neg (by simp [h])]
  · intro h1 h2
    unfold nx_diameter_report
    rw [if_neg (by simp [h1]), if_pos h2]
    rfl
  · intro x hx
    have hconn : connected_und g = true := by
      unfold connected_und reaches_all
      rw [hx]
      simp [ball]
    unfold nx_diameter_report
    rw [if_neg (by simp [hx]), if_pos hconn, hx]
    simp [ecc_singleton g x hx]

/-- Witness for the amended claim C9: the connected Scenario A graph gets a
numeric diameter and the one node graph gets the numeric diameter 0. -/
theorem nx_diameter_report_connected_witness :
    (nx_diameter_report gA).isSome = true ∧ nx_diameter_report gLoop = some 0 :=
  ⟨(nx_diameter_report_connected gA).2.2.1 (by decide) (by decide),
   (nx_diameter_report_connected gLoop).2.2.2 "X" (by decide)⟩


/-- Witness for claim C1 at the duplicate pair table. -/
theorem build_graph_duplicate_rows_collapse_witness :
    (build_graph [Row.mk "X" "Y" [], Row.mk "X" "Y" []]).edges = [("X", "Y")] ∧
    (build_graph [Row.mk "X" "Y" [], Row.mk "X" "Y" []]).edges.Nodup :=
  ⟨build_graph_duplicate_rows_collapse.1.1,
   (build_graph_duplicate_rows_collapse.2 [Row.mk "X" "Y" [], Row.mk "X" "Y" []]).1⟩

/-- Witness for claim C3 at the Scenario A table. -/
theorem build_graph_nodes_exact_witness :
    (build_graph scenarioA).nodes = ["A", "B", "C"] ∧ (build_graph scenarioA).nodes.Nodup :=
  ⟨build_graph_nodes_exact.1, (build_graph_nodes_exact.2 scenarioA).1⟩

/-- Witness for claim C10 at the Scenario A table. -/
theorem build_graph_no_isolates_witness : nx_isolates gA = [] :=
  (build_graph_no_isolates scenarioA).1

end Net
